import Mathlib

/-!
Shallow embedding of the TodoAPI backend (ASP.NET Core, C#).

Layers modelled, following the source layout:
* `Todo`            — Domain/Todo.cs
* `TodoRepository`  — Application/Repository/TodoRepository.cs, the in-memory
  `ConcurrentDictionary<Guid, Todo>` store, modelled as an association list
  keyed by `Nat` (Guids are opaque identifiers; only equality is used).
* `TodoService`     — Application/Service/TodoService.cs.  Thrown
  `ArgumentException`s are modelled as `Except.error` carrying the message.
  The C# service mutates the entity fetched from the repository in place and
  then writes it back; the validation throw happens before the first field
  assignment and the write-back always follows the last one, so the pure
  read–modify–write model below is observationally identical.
* `TodoController`  — Presentation/Controllers/TodoController.cs, returning
  an `ApiResult` (the IActionResult shapes actually produced) plus the store.

`Guid.NewGuid()` (the fresh id generated by the `Todo` object initializer) is
modelled by passing the generated id as an explicit argument.
-/

set_option maxRecDepth 8192

namespace TodoAPI

/-- Model of C#'s `char.IsWhiteSpace` restricted to the whitespace characters
relevant here (space, tab, CR, LF) via Lean's `Char.isWhitespace`. -/
def isWhiteSpaceChar (c : Char) : Bool := c.isWhitespace

/-- Model of `string.IsNullOrWhiteSpace` on a non-null string: every character
is whitespace (true for the empty string). -/
def isNullOrWhiteSpace (s : String) : Bool := s.data.all isWhiteSpaceChar

/-- Strip leading and trailing whitespace from a character list. -/
def trimChars (l : List Char) : List Char :=
  ((l.dropWhile isWhiteSpaceChar).reverse.dropWhile isWhiteSpaceChar).reverse

/-- Model of C#'s `string.Trim()`: remove leading and trailing whitespace. -/
def trimString (s : String) : String := String.mk (trimChars s.data)

/-- Domain/Todo.cs: the task entity. `Id` stands for the `Guid`. -/
structure Todo where
  Id : Nat
  Descricao : String
  Completo : Bool
deriving Repr, DecidableEq

/-- The repository's backing `ConcurrentDictionary<Guid, Todo>`, as an
association list (keys are unique in every state the program reaches). -/
abbrev Store := List (Nat × Todo)

namespace TodoRepository

/-- `GetByIdAsync`: `_store.TryGetValue(id, out var todo) ? todo : null`. -/
def GetByIdAsync : Store → Nat → Option Todo
  | [], _ => none
  | p :: rest, id => if p.1 = id then some p.2 else GetByIdAsync rest id

/-- The dictionary indexer `_store[k] = t`: replace the entry at `k` if
present, otherwise add one. -/
def dictSet : Store → Nat → Todo → Store
  | [], k, t => [(k, t)]
  | p :: rest, k, t => if p.1 = k then (k, t) :: rest else p :: dictSet rest k t

/-- `CreateAsync`: `_store[entity.Id] = entity`. -/
def CreateAsync (s : Store) (entity : Todo) : Store := dictSet s entity.Id entity

/-- `UpdateAsync`: `_store[entity.Id] = entity` (same as create). -/
def UpdateAsync (s : Store) (entity : Todo) : Store := dictSet s entity.Id entity

/-- `DeleteAsync`: `_store.TryRemove(id, out _)` — removes the entry with the
given key if present, silently does nothing otherwise. -/
def DeleteAsync : Store → Nat → Store
  | [], _ => []
  | p :: rest, id => if p.1 = id then DeleteAsync rest id else p :: DeleteAsync rest id

/-- `GetAllAsync`: `_store.Values`. -/
def GetAllAsync (s : Store) : List Todo := s.map (fun p => p.2)

end TodoRepository

namespace TodoService

/-- `TodoService.GetAllAsync`: delegates to the repository. -/
def GetAllAsync (s : Store) : List Todo := TodoRepository.GetAllAsync s

/-- `TodoService.GetByIdAsync`: delegates to the repository. -/
def GetByIdAsync (s : Store) (id : Nat) : Option Todo := TodoRepository.GetByIdAsync s id

/-- `TodoService.CreateAsync`: rejects a null/whitespace description with
`ArgumentException("Descrição obrigatória")`, otherwise builds the entity with
the trimmed description (the fresh `Guid.NewGuid()` id is the `freshId`
argument) and persists it via the repository. -/
def CreateAsync (s : Store) (freshId : Nat) (descricao : String) (completo : Bool) :
    Except String (Todo × Store) :=
  if isNullOrWhiteSpace descricao then
    Except.error "Descrição obrigatória"
  else
    let todo : Todo := ⟨freshId, trimString descricao, completo⟩
    Except.ok (todo, TodoRepository.CreateAsync s todo)

/-- The `if (descricao != null)` block of `TodoService.UpdateAsync`: when a
description is supplied it must not be whitespace, and the stored value is
replaced by its trimmed form. -/
def updateDescricao (existing : Todo) (descricao : Option String) : Except String Todo :=
  match descricao with
  | none => Except.ok existing
  | some d =>
    if isNullOrWhiteSpace d then Except.error "Descrição não pode ficar vazia"
    else Except.ok ⟨existing.Id, trimString d, existing.Completo⟩

/-- The `if (completo.HasValue)` block of `TodoService.UpdateAsync`. -/
def updateCompleto (t : Todo) (completo : Option Bool) : Todo :=
  match completo with
  | none => t
  | some c => ⟨t.Id, t.Descricao, c⟩

/-- Result of `TodoService.UpdateAsync`: the returned boolean, the resulting
store, and whether the repository write-back (`_repo.UpdateAsync`) was
invoked on this code path. -/
structure UpdateOutcome where
  ok : Bool
  store : Store
  wrote : Bool
deriving Repr, DecidableEq

/-- `TodoService.UpdateAsync`: fetch; `false` when absent; validate and apply
the supplied fields; always write back through the repository when found. -/
def UpdateAsync (s : Store) (id : Nat) (descricao : Option String) (completo : Option Bool) :
    Except String UpdateOutcome :=
  match TodoRepository.GetByIdAsync s id with
  | none => Except.ok ⟨false, s, false⟩
  | some existing =>
    match updateDescricao existing descricao with
    | Except.error msg => Except.error msg
    | Except.ok afterDescricao =>
      let final := updateCompleto afterDescricao completo
      Except.ok ⟨true, TodoRepository.UpdateAsync s final, true⟩

/-- `TodoService.ToggleCompleteAsync`: fetch; `false` when absent; otherwise
negate `Completo` and write back. -/
def ToggleCompleteAsync (s : Store) (id : Nat) : Bool × Store :=
  match TodoRepository.GetByIdAsync s id with
  | none => (false, s)
  | some existing =>
    let flipped : Todo := ⟨existing.Id, existing.Descricao, !existing.Completo⟩
    (true, TodoRepository.UpdateAsync s flipped)

/-- `TodoService.DeleteAsync`: fetch; `false` when absent; otherwise delete
through the repository and return `true`.  No code path throws. -/
def DeleteAsync (s : Store) (id : Nat) : Bool × Store :=
  match TodoRepository.GetByIdAsync s id with
  | none => (false, s)
  | some _ => (true, TodoRepository.DeleteAsync s id)

end TodoService

/-- Dtos/TodoCreateDto.cs: `Descricao` defaults to `string.Empty` when the
body omits it; `Completo` is `bool?`. -/
structure TodoCreateDto where
  Descricao : String
  Completo : Option Bool
deriving Repr, DecidableEq

/-- Dtos/TodoUpdateDto.cs: both fields nullable — `null` means "leave the
stored value unchanged". -/
structure TodoUpdateDto where
  Descricao : Option String
  Completo : Option Bool
deriving Repr, DecidableEq

/-- The IActionResult shapes produced by TodoController.cs. -/
inductive ApiResult where
  | okNoBody : ApiResult
  | okTodo : Todo → ApiResult
  | okList : List Todo → ApiResult
  | createdAt : Todo → ApiResult
  | noContent : ApiResult
  | notFound : ApiResult
  | badRequest : String → ApiResult
deriving Repr, DecidableEq

/-- The HTTP status code carried by each `ApiResult` shape. -/
def statusCode : ApiResult → Nat
  | ApiResult.okNoBody => 200
  | ApiResult.okTodo _ => 200
  | ApiResult.okList _ => 200
  | ApiResult.createdAt _ => 201
  | ApiResult.noContent => 204
  | ApiResult.notFound => 404
  | ApiResult.badRequest _ => 400

namespace TodoController

/-- `GET api/Todo`: `Ok(list)`. -/
def GetAll (s : Store) : ApiResult := ApiResult.okList (TodoService.GetAllAsync s)

/-- `GET api/Todo/{id}`: `NotFound()` when null, else `Ok(todo)`. -/
def GetById (s : Store) (id : Nat) : ApiResult :=
  match TodoService.GetByIdAsync s id with
  | none => ApiResult.notFound
  | some todo => ApiResult.okTodo todo

/-- `POST api/Todo`: `CreatedAtAction` on success; a caught
`ArgumentException` becomes `BadRequest` and the store is untouched.
`dto.Completo ?? false` supplies the default. -/
def Create (s : Store) (freshId : Nat) (dto : TodoCreateDto) : ApiResult × Store :=
  match TodoService.CreateAsync s freshId dto.Descricao (dto.Completo.getD false) with
  | Except.ok (todo, s₂) => (ApiResult.createdAt todo, s₂)
  | Except.error msg => (ApiResult.badRequest msg, s)

/-- `PUT api/Todo/{id}`: `NoContent()` when the service returns true,
`NotFound()` when false, `BadRequest` on a caught `ArgumentException`. -/
def Update (s : Store) (id : Nat) (dto : TodoUpdateDto) : ApiResult × Store :=
  match TodoService.UpdateAsync s id dto.Descricao dto.Completo with
  | Except.ok r => if r.ok then (ApiResult.noContent, r.store) else (ApiResult.notFound, r.store)
  | Except.error msg => (ApiResult.badRequest msg, s)

/-- `PATCH api/Todo/{id}/toggle`: `Ok()` or `NotFound()`. -/
def Toggle (s : Store) (id : Nat) : ApiResult × Store :=
  let r := TodoService.ToggleCompleteAsync s id
  if r.1 then (ApiResult.okNoBody, r.2) else (ApiResult.notFound, r.2)

/-- `DELETE api/Todo/{id}`: `NoContent()` or `NotFound()`. -/
def Delete (s : Store) (id : Nat) : ApiResult × Store :=
  let r := TodoService.DeleteAsync s id
  if r.1 then (ApiResult.noContent, r.2) else (ApiResult.notFound, r.2)

end TodoController

/-! Lookup lemmas for the store operations. -/

/-- Looking up the key just written by the dictionary indexer yields the new
value. -/
theorem getById_dictSet_self (s : Store) (k : Nat) (t : Todo) :
    TodoRepository.GetByIdAsync (TodoRepository.dictSet s k t) k = some t := by
  induction s with
  | nil => simp [TodoRepository.dictSet, TodoRepository.GetByIdAsync]
  | cons p rest ih =>
    by_cases h : p.1 = k <;>
      simp [TodoRepository.dictSet, TodoRepository.GetByIdAsync, h, ih]

/-- Writing one key through the dictionary indexer leaves every other key's
lookup unchanged. -/
theorem getById_dictSet_other (s : Store) (k j : Nat) (t : Todo) (hj : j ≠ k) :
    TodoRepository.GetByIdAsync (TodoRepository.dictSet s k t) j =
      TodoRepository.GetByIdAsync s j := by
  have hk : ¬ k = j := fun hh => hj hh.symm
  induction s with
  | nil =>
    simp [TodoRepository.dictSet, TodoRepository.GetByIdAsync, hk]
  | cons p rest ih =>
    by_cases h : p.1 = k
    · by_cases h2 : p.1 = j
      · exact absurd (h2.symm.trans h) hj
      · simp [TodoRepository.dictSet, TodoRepository.GetByIdAsync, h, h2, hk]
    · simp [TodoRepository.dictSet, TodoRepository.GetByIdAsync, h, ih]

/-- After `TryRemove(id)` the removed key no longer resolves. -/
theorem getById_delete_self (s : Store) (k : Nat) :
    TodoRepository.GetByIdAsync (TodoRepository.DeleteAsync s k) k = none := by
  induction s with
  | nil => simp [TodoRepository.DeleteAsync, TodoRepository.GetByIdAsync]
  | cons p rest ih =>
    by_cases h : p.1 = k <;>
      simp [TodoRepository.DeleteAsync, TodoRepository.GetByIdAsync, h, ih]

/-- `TryRemove(id)` leaves every other key's lookup unchanged. -/
theorem getById_delete_other (s : Store) (k j : Nat) (hj : j ≠ k) :
    TodoRepository.GetByIdAsync (TodoRepository.DeleteAsync s k) j =
      TodoRepository.GetByIdAsync s j := by
  have hk : ¬ k = j := fun hh => hj hh.symm
  induction s with
  | nil => simp [TodoRepository.DeleteAsync]
  | cons p rest ih =>
    by_cases h : p.1 = k
    · have h2 : ¬ p.1 = j := fun hh => hj ((hh.symm.trans h))
      simp [TodoRepository.DeleteAsync, TodoRepository.GetByIdAsync, h, h2, hk, ih]
    · simp [TodoRepository.DeleteAsync, TodoRepository.GetByIdAsync, h, ih]

/-! Concrete fixtures used to instantiate the theorems below. -/

/-- A stored task used as a concrete instance. -/
def t0 : Todo := ⟨0, "tarefa", false⟩

/-- A one-task store. -/
def s0 : Store := [(0, t0)]

/-- A 501-character description. -/
def longDescricao : String := String.mk (List.replicate 501 'a')

/-- The task the service builds from `longDescricao`. -/
def longTodo : Todo := ⟨7, trimString longDescricao, false⟩

/-- C1: an update whose description argument is supplied but empty or
all-whitespace fails with the validation error (`ArgumentException`, mapped
to 400 by the controller) and the stored record for that id is exactly as
before, whether or not a `completo` argument was also supplied. -/
theorem update_invalid_descricao_rejects_and_preserves_record
    (s : Store) (id : Nat) (t : Todo) (d : String) (c : Option Bool)
    (h : TodoRepository.GetByIdAsync s id = some t)
    (hw : isNullOrWhiteSpace d = true) :
    TodoService.UpdateAsync s id (some d) c =
      Except.error "Descrição não pode ficar vazia" ∧
    TodoController.Update s id ⟨some d, c⟩ =
      (ApiResult.badRequest "Descrição não pode ficar vazia", s) ∧
    TodoRepository.GetByIdAsync (TodoController.Update s id ⟨some d, c⟩).2 id = some t := by
  have h1 : TodoService.UpdateAsync s id (some d) c =
      Except.error "Descrição não pode ficar vazia" := by
    simp [TodoService.UpdateAsync, h, TodoService.updateDescricao, hw]
  refine ⟨h1, ?_, ?_⟩ <;> simp [TodoController.Update, h1, h]

/-- Witness for C1 at a concrete one-task store. -/
theorem update_invalid_descricao_rejects_and_preserves_record_check :
    TodoService.UpdateAsync s0 0 (some "   ") (some true) =
      Except.error "Descrição não pode ficar vazia" ∧
    TodoController.Update s0 0 ⟨some "   ", some true⟩ =
      (ApiResult.badRequest "Descrição não pode ficar vazia", s0) ∧
    TodoRepository.GetByIdAsync (TodoController.Update s0 0 ⟨some "   ", some true⟩).2 0 =
      some t0 :=
  update_invalid_descricao_rejects_and_preserves_record s0 0 t0 "   " (some true)
    (by decide) (by decide)

/-- C2 counterexample: an update supplying neither field, on a task that
exists, still invokes the repository write-back (`wrote = true` records that
`_repo.UpdateAsync` runs on this path), so "supplies neither field does not
write to the store" is false. -/
theorem update_no_fields_still_invokes_write :
    TodoService.UpdateAsync s0 0 none none = Except.ok ⟨true, s0, true⟩ ∧
    (⟨true, s0, true⟩ : TodoService.UpdateOutcome).wrote ≠ false :=
  ⟨rfl, by decide⟩

/-- C2 amended: the update persists through the store whenever the task
existed — even when neither optional field was supplied, the unchanged record
is written back — and returns true; when the task is absent it returns false
without writing. -/
theorem update_persists_whenever_found (s s₂ : Store) (id : Nat) (t : Todo)
    (h : TodoRepository.GetByIdAsync s id = some t)
    (h₂ : TodoRepository.GetByIdAsync s₂ id = none) :
    TodoService.UpdateAsync s id none none =
      Except.ok ⟨true, TodoRepository.UpdateAsync s t, true⟩ ∧
    TodoService.UpdateAsync s₂ id none none = Except.ok ⟨false, s₂, false⟩ := by
  constructor
  · simp [TodoService.UpdateAsync, h, TodoService.updateDescricao,
      TodoService.updateCompleto]
  · simp [TodoService.UpdateAsync, h₂]

/-- Witness for the amended C2: present task at `s0`, absent task at `[]`. -/
theorem update_persists_whenever_found_check :
    TodoService.UpdateAsync s0 0 none none =
      Except.ok ⟨true, TodoRepository.UpdateAsync s0 t0, true⟩ ∧
    TodoService.UpdateAsync ([] : Store) 0 none none = Except.ok ⟨false, [], false⟩ :=
  update_persists_whenever_found s0 [] 0 t0 (by decide) (by decide)

/-- C3 counterexample: the service accepts and persists a 501-character
description — no operation on the path through `TodoService` and the
in-memory `TodoRepository` checks the 500-character bound, which exists only
in the EF model configuration (`HasMaxLength(500)`). -/
theorem create_persists_descricao_longer_than_500 :
    TodoService.CreateAsync [] 7 longDescricao false =
      Except.ok (longTodo, [(7, longTodo)]) ∧
    TodoRepository.GetByIdAsync [(7, longTodo)] 7 = some longTodo ∧
    500 < longTodo.Descricao.length :=
  ⟨rfl, by decide, by decide⟩

/-- C3 amended: the service imposes no length bound at all — it rejects only
empty/whitespace descriptions and persists any other description (trimmed) of
arbitrary length; the 500-character maximum lives only in the database schema
configuration, which the in-memory store never consults. -/
theorem create_imposes_no_length_bound (s : Store) (freshId : Nat) (d : String) (c : Bool)
    (h : isNullOrWhiteSpace d = false) :
    TodoService.CreateAsync s freshId d c =
      Except.ok (⟨freshId, trimString d, c⟩,
        TodoRepository.CreateAsync s ⟨freshId, trimString d, c⟩) := by
  simp [TodoService.CreateAsync, h]

/-- Witness for the amended C3, instantiated at the 501-character input. -/
theorem create_imposes_no_length_bound_check :
    isNullOrWhiteSpace longDescricao = false ∧
    TodoService.CreateAsync [] 7 longDescricao false =
      Except.ok (⟨7, trimString longDescricao, false⟩,
        TodoRepository.CreateAsync [] ⟨7, trimString longDescricao, false⟩) :=
  ⟨by decide, create_imposes_no_length_bound [] 7 longDescricao false (by decide)⟩

/-- C4: for a valid description, create (with no completed flag, i.e. the C#
default `false`) followed by getById on the returned task's id yields a task
whose description is the trimmed input and whose completed flag is false. -/
theorem create_then_getById_roundtrip (s : Store) (freshId : Nat) (d : String)
    (h : isNullOrWhiteSpace d = false) :
    TodoService.CreateAsync s freshId d false =
      Except.ok (⟨freshId, trimString d, false⟩,
        TodoRepository.CreateAsync s ⟨freshId, trimString d, false⟩) ∧
    TodoService.GetByIdAsync (TodoRepository.CreateAsync s ⟨freshId, trimString d, false⟩)
      (⟨freshId, trimString d, false⟩ : Todo).Id = some ⟨freshId, trimString d, false⟩ ∧
    (⟨freshId, trimString d, false⟩ : Todo).Descricao = trimString d ∧
    (⟨freshId, trimString d, false⟩ : Todo).Completo = false := by
  refine ⟨?_, ?_, rfl, rfl⟩
  · simp [TodoService.CreateAsync, h]
  · simpa [TodoService.GetByIdAsync, TodoRepository.CreateAsync] using
      getById_dictSet_self s freshId ⟨freshId, trimString d, false⟩

/-- Witness for C4 with a description carrying surrounding whitespace. -/
theorem create_then_getById_roundtrip_check :
    TodoService.CreateAsync [] 3 "  Comprar leite " false =
      Except.ok (⟨3, trimString "  Comprar leite ", false⟩,
        TodoRepository.CreateAsync [] ⟨3, trimString "  Comprar leite ", false⟩) ∧
    TodoService.GetByIdAsync
      (TodoRepository.CreateAsync [] ⟨3, trimString "  Comprar leite ", false⟩)
      (⟨3, trimString "  Comprar leite ", false⟩ : Todo).Id =
      some ⟨3, trimString "  Comprar leite ", false⟩ ∧
    (⟨3, trimString "  Comprar leite ", false⟩ : Todo).Descricao =
      trimString "  Comprar leite " ∧
    (⟨3, trimString "  Comprar leite ", false⟩ : Todo).Completo = false :=
  create_then_getById_roundtrip [] 3 "  Comprar leite " (by decide)

/-- C5: toggling a stored task twice returns true both times and the stored
record afterwards is exactly the original one (in particular `Completo` is
restored).  `hk` is the store invariant that every entry is keyed by its
task's id, which every repository write maintains. -/
theorem toggle_twice_restores (s : Store) (id : Nat) (t : Todo)
    (h : TodoRepository.GetByIdAsync s id = some t) (hk : t.Id = id) :
    (TodoService.ToggleCompleteAsync s id).1 = true ∧
    (TodoService.ToggleCompleteAsync (TodoService.ToggleCompleteAsync s id).2 id).1 = true ∧
    TodoRepository.GetByIdAsync
      (TodoService.ToggleCompleteAsync (TodoService.ToggleCompleteAsync s id).2 id).2 id =
      some t := by
  obtain ⟨tid, td, tc⟩ := t
  subst hk
  have e1 : TodoService.ToggleCompleteAsync s tid =
      (true, TodoRepository.dictSet s tid ⟨tid, td, !tc⟩) := by
    simp [TodoService.ToggleCompleteAsync, h, TodoRepository.UpdateAsync]
  have g1 : TodoRepository.GetByIdAsync (TodoRepository.dictSet s tid ⟨tid, td, !tc⟩) tid =
      some ⟨tid, td, !tc⟩ := getById_dictSet_self s tid ⟨tid, td, !tc⟩
  have e2 : TodoService.ToggleCompleteAsync (TodoRepository.dictSet s tid ⟨tid, td, !tc⟩) tid =
      (true, TodoRepository.dictSet (TodoRepository.dictSet s tid ⟨tid, td, !tc⟩) tid
        ⟨tid, td, !(!tc)⟩) := by
    simp [TodoService.ToggleCompleteAsync, g1, TodoRepository.UpdateAsync]
  refine ⟨by rw [e1], by rw [e1]; rw [e2], ?_⟩
  rw [e1]
  show TodoRepository.GetByIdAsync
    (TodoService.ToggleCompleteAsync (TodoRepository.dictSet s tid ⟨tid, td, !tc⟩) tid).2 tid =
    some ⟨tid, td, tc⟩
  rw [e2]
  simpa [Bool.not_not] using
    getById_dictSet_self (TodoRepository.dictSet s tid ⟨tid, td, !tc⟩) tid ⟨tid, td, !(!tc)⟩

/-- Witness for C5 at the concrete one-task store. -/
theorem toggle_twice_restores_check :
    (TodoService.ToggleCompleteAsync s0 0).1 = true ∧
    (TodoService.ToggleCompleteAsync (TodoService.ToggleCompleteAsync s0 0).2 0).1 = true ∧
    TodoRepository.GetByIdAsync
      (TodoService.ToggleCompleteAsync (TodoService.ToggleCompleteAsync s0 0).2 0).2 0 =
      some t0 :=
  toggle_twice_restores s0 0 t0 (by decide) (by decide)

/-- Modelled from the spec: the response the POST contract promises — 400
with the store untouched exactly when the description is empty or
all-whitespace, otherwise 201 with the created task (trimmed description,
the generated id, `completo` defaulting to false) added to the store under
its id.  The error message text is the one the implementation produces. -/
def expectedCreateResponse (s : Store) (freshId : Nat) (dto : TodoCreateDto) :
    ApiResult × Store :=
  if dto.Descricao = "" ∨ dto.Descricao.data.all isWhiteSpaceChar = true then
    (ApiResult.badRequest "Descrição obrigatória", s)
  else
    (ApiResult.createdAt ⟨freshId, trimString dto.Descricao, dto.Completo.getD false⟩,
      TodoRepository.dictSet s freshId
        ⟨freshId, trimString dto.Descricao, dto.Completo.getD false⟩)

/-- C6: the create endpoint behaves exactly as the contract states — it
fails (ValidationError, HTTP 400) iff the description is empty or
all-whitespace, leaving the store unchanged, and otherwise trims the
description, uses the generated id, applies the completed default, persists
the task and returns it with 201. -/
theorem create_endpoint_matches_contract (s : Store) (freshId : Nat) (dto : TodoCreateDto) :
    TodoController.Create s freshId dto = expectedCreateResponse s freshId dto := by
  by_cases hall : dto.Descricao.data.all isWhiteSpaceChar = true
  · have hnw : isNullOrWhiteSpace dto.Descricao = true := hall
    simp [TodoController.Create, TodoService.CreateAsync, expectedCreateResponse, hnw, hall]
  · have hne : ¬ (dto.Descricao = "" ∨ dto.Descricao.data.all isWhiteSpaceChar = true) := by
      rintro (he | ha)
      · exact hall (by rw [he]; rfl)
      · exact hall ha
    have hnw : isNullOrWhiteSpace dto.Descricao = false := by
      simpa [isNullOrWhiteSpace] using hall
    unfold expectedCreateResponse
    rw [if_neg hne]
    simp [TodoController.Create, TodoService.CreateAsync, hnw, TodoRepository.CreateAsync]

/-- C7: an update supplying only `completo` changes exactly that flag — the
stored record keeps its id and description, and the lookup of every other id
is untouched. -/
theorem update_completo_only_changes_completo (s : Store) (id : Nat) (t : Todo) (v : Bool)
    (h : TodoRepository.GetByIdAsync s id = some t) (hk : t.Id = id) :
    TodoService.UpdateAsync s id none (some v) =
      Except.ok ⟨true, TodoRepository.UpdateAsync s ⟨t.Id, t.Descricao, v⟩, true⟩ ∧
    TodoRepository.GetByIdAsync (TodoRepository.UpdateAsync s ⟨t.Id, t.Descricao, v⟩) id =
      some ⟨t.Id, t.Descricao, v⟩ ∧
    ∀ j, j ≠ id →
      TodoRepository.GetByIdAsync (TodoRepository.UpdateAsync s ⟨t.Id, t.Descricao, v⟩) j =
        TodoRepository.GetByIdAsync s j := by
  subst hk
  refine ⟨?_, ?_, ?_⟩
  · simp [TodoService.UpdateAsync, h, TodoService.updateDescricao, TodoService.updateCompleto]
  · simpa [TodoRepository.UpdateAsync] using
      getById_dictSet_self s t.Id ⟨t.Id, t.Descricao, v⟩
  · intro j hj
    simpa [TodoRepository.UpdateAsync] using
      getById_dictSet_other s t.Id j ⟨t.Id, t.Descricao, v⟩ hj

/-- Witness for C7: set `completo` to true on the concrete store and check a
distinct id (5) is untouched. -/
theorem update_completo_only_changes_completo_check :
    TodoService.UpdateAsync s0 0 none (some true) =
      Except.ok ⟨true, TodoRepository.UpdateAsync s0 ⟨t0.Id, t0.Descricao, true⟩, true⟩ ∧
    TodoRepository.GetByIdAsync (TodoRepository.UpdateAsync s0 ⟨t0.Id, t0.Descricao, true⟩) 0 =
      some ⟨t0.Id, t0.Descricao, true⟩ ∧
    TodoRepository.GetByIdAsync (TodoRepository.UpdateAsync s0 ⟨t0.Id, t0.Descricao, true⟩) 5 =
      TodoRepository.GetByIdAsync s0 5 :=
  ⟨(update_completo_only_changes_completo s0 0 t0 true (by decide) (by decide)).1,
   (update_completo_only_changes_completo s0 0 t0 true (by decide) (by decide)).2.1,
   (update_completo_only_changes_completo s0 0 t0 true (by decide) (by decide)).2.2 5
     (by decide)⟩

/-- Modelled from the spec: the status code the PUT contract promises — 404
when no task with the id exists (checked before any validation of the body),
else 400 when a description is present but empty or all-whitespace, else
204. -/
def expectedPutStatus (s : Store) (id : Nat) (dto : TodoUpdateDto) : Nat :=
  match TodoRepository.GetByIdAsync s id with
  | none => 404
  | some _ =>
    match dto.Descricao with
    | none => 204
    | some d => if d = "" ∨ d.data.all isWhiteSpaceChar = true then 400 else 204

/-- C8: the PUT endpoint's status agrees with the contract on every store,
id and body: an absent id yields 404 even when the body's description is
invalid (existence is checked first), a present id with an empty/whitespace
description yields 400, and otherwise 204 (the `noContent` result carries no
body). -/
theorem put_endpoint_status_matches_contract (s : Store) (id : Nat) (dto : TodoUpdateDto) :
    statusCode (TodoController.Update s id dto).1 = expectedPutStatus s id dto := by
  cases hg : TodoRepository.GetByIdAsync s id with
  | none =>
    simp [TodoController.Update, TodoService.UpdateAsync, expectedPutStatus, hg, statusCode]
  | some t =>
    cases hd : dto.Descricao with
    | none =>
      simp [TodoController.Update, TodoService.UpdateAsync, expectedPutStatus, hg, hd,
        TodoService.updateDescricao, statusCode]
    | some d =>
      by_cases hall : d.data.all isWhiteSpaceChar = true
      · have hw : isNullOrWhiteSpace d = true := hall
        have hcond : d = "" ∨ d.data.all isWhiteSpaceChar = true := Or.inr hall
        have he : expectedPutStatus s id dto = 400 := by
          simp only [expectedPutStatus, hg, hd]
          exact if_pos hcond
        rw [he]
        simp [TodoController.Update, TodoService.UpdateAsync, hg, hd,
          TodoService.updateDescricao, hw, statusCode]
      · have hw : isNullOrWhiteSpace d = false := by
          simpa [isNullOrWhiteSpace] using hall
        have hcond : ¬ (d = "" ∨ d.data.all isWhiteSpaceChar = true) := by
          rintro (he | ha)
          · exact hall (by rw [he]; rfl)
          · exact hall ha
        have he : expectedPutStatus s id dto = 204 := by
          simp only [expectedPutStatus, hg, hd]
          exact if_neg hcond
        rw [he]
        simp [TodoController.Update, TodoService.UpdateAsync, hg, hd,
          TodoService.updateDescricao, hw, statusCode]

/-- C9: delete returns false for an absent id — again on a repeat call — and
never throws (no code path of `TodoService.DeleteAsync` raises, which the
total return type reflects); when the record exists it removes exactly that
record, returns true, and a subsequent delete of the same id returns
false. -/
theorem delete_reports_existence_and_is_idempotent (s : Store) (id : Nat) :
    (TodoRepository.GetByIdAsync s id = none →
      TodoService.DeleteAsync s id = (false, s)) ∧
    (∀ t, TodoRepository.GetByIdAsync s id = some t →
      TodoService.DeleteAsync s id = (true, TodoRepository.DeleteAsync s id) ∧
      TodoRepository.GetByIdAsync (TodoRepository.DeleteAsync s id) id = none ∧
      (∀ j, j ≠ id →
        TodoRepository.GetByIdAsync (TodoRepository.DeleteAsync s id) j =
          TodoRepository.GetByIdAsync s j) ∧
      TodoService.DeleteAsync (TodoRepository.DeleteAsync s id) id =
        (false, TodoRepository.DeleteAsync s id)) := by
  constructor
  · intro h
    simp [TodoService.DeleteAsync, h]
  · intro t h
    refine ⟨by simp [TodoService.DeleteAsync, h], getById_delete_self s id, ?_, ?_⟩
    · intro j hj
      exact getById_delete_other s id j hj
    · simp [TodoService.DeleteAsync, getById_delete_self s id]

/-- Witness for C9: absent id on the empty store, then present id on the
one-task store followed by the repeat delete. -/
theorem delete_reports_existence_and_is_idempotent_check :
    TodoService.DeleteAsync ([] : Store) 0 = (false, []) ∧
    TodoService.DeleteAsync s0 0 = (true, TodoRepository.DeleteAsync s0 0) ∧
    TodoService.DeleteAsync (TodoRepository.DeleteAsync s0 0) 0 =
      (false, TodoRepository.DeleteAsync s0 0) :=
  ⟨(delete_reports_existence_and_is_idempotent [] 0).1 (by decide),
   ((delete_reports_existence_and_is_idempotent s0 0).2 t0 (by decide)).1,
   ((delete_reports_existence_and_is_idempotent s0 0).2 t0 (by decide)).2.2.2⟩

/-- C10: a PUT whose body supplies neither field, on an existing task,
returns 204 (`noContent`) and the lookup of every id — the updated one
included — is exactly as before the call. -/
theorem put_empty_dto_returns_204_and_changes_nothing (s : Store) (id : Nat) (t : Todo)
    (h : TodoRepository.GetByIdAsync s id = some t) (hk : t.Id = id) :
    TodoController.Update s id ⟨none, none⟩ =
      (ApiResult.noContent, TodoRepository.UpdateAsync s t) ∧
    ∀ j, TodoRepository.GetByIdAsync (TodoRepository.UpdateAsync s t) j =
      TodoRepository.GetByIdAsync s j := by
  subst hk
  constructor
  · simp [TodoController.Update, TodoService.UpdateAsync, h, TodoService.updateDescricao,
      TodoService.updateCompleto]
  · intro j
    by_cases hj : j = t.Id
    · subst hj
      rw [h]
      simpa [TodoRepository.UpdateAsync] using getById_dictSet_self s t.Id t
    · simpa [TodoRepository.UpdateAsync] using getById_dictSet_other s t.Id j t hj

/-- Witness for C10: the empty body on the concrete one-task store, with the
updated id (0) and an unrelated id (5) both checked. -/
theorem put_empty_dto_returns_204_and_changes_nothing_check :
    TodoController.Update s0 0 ⟨none, none⟩ =
      (ApiResult.noContent, TodoRepository.UpdateAsync s0 t0) ∧
    TodoRepository.GetByIdAsync (TodoRepository.UpdateAsync s0 t0) 0 =
      TodoRepository.GetByIdAsync s0 0 ∧
    TodoRepository.GetByIdAsync (TodoRepository.UpdateAsync s0 t0) 5 =
      TodoRepository.GetByIdAsync s0 5 :=
  ⟨(put_empty_dto_returns_204_and_changes_nothing s0 0 t0 (by decide) (by decide)).1,
   (put_empty_dto_returns_204_and_changes_nothing s0 0 t0 (by decide) (by decide)).2 0,
   (put_empty_dto_returns_204_and_changes_nothing s0 0 t0 (by decide) (by decide)).2 5⟩

end TodoAPI
